import Mathlib

/-!
Verification development for the OtoRecord voice-capture front-end.

The definitions below are a shallow embedding of the audio capture and
voice-activity/auto-stop state machine of `src/App.tsx`.  Pure functions
of the source become Lean functions; the mutable refs and React state of
the component become fields of an explicit `Model` record, and each
long-lived callback of the source (the `stopRecording` routine, the VAD
tick `analyzeAudio`, the speech-recognition `onresult` handler, the
`ondataavailable`/`onstop` recorder events, the auto-stop timeout
callback and the session-timer interval callback) becomes a function
from `Model` to `Model`.  Timestamps are naturals (milliseconds);
encoded audio chunks are byte lists.
-/

/- ------------------------------------------------------------------ -/
/- Text normalization (src/App.tsx lines 14-21).                       -/
/- ------------------------------------------------------------------ -/

/-- Association-list lookup keyed by characters, used to give executable
tables for the JavaScript `toLowerCase` and `normalize("NFD")` calls. -/
def lookupC {α : Type} : List (Char × α) → Char → Option α
  | [], _ => none
  | p :: rest, c => if c = p.1 then some p.2 else lookupC rest c

/-- Table of the `String.prototype.toLowerCase` mapping, restricted to
the repertoire relevant to the app's Portuguese keyword matching: ASCII
letters and the precomposed accented letters of Portuguese.  Every other
character is left unchanged. -/
def lowerTable : List (Char × Char) :=
  [('A', 'a'), ('B', 'b'), ('C', 'c'), ('D', 'd'), ('E', 'e'), ('F', 'f'),
   ('G', 'g'), ('H', 'h'), ('I', 'i'), ('J', 'j'), ('K', 'k'), ('L', 'l'),
   ('M', 'm'), ('N', 'n'), ('O', 'o'), ('P', 'p'), ('Q', 'q'), ('R', 'r'),
   ('S', 's'), ('T', 't'), ('U', 'u'), ('V', 'v'), ('W', 'w'), ('X', 'x'),
   ('Y', 'y'), ('Z', 'z'),
   ('Á', 'á'), ('À', 'à'), ('Â', 'â'), ('Ã', 'ã'), ('É', 'é'), ('Ê', 'ê'),
   ('Í', 'í'), ('Ó', 'ó'), ('Ô', 'ô'), ('Õ', 'õ'), ('Ú', 'ú'), ('Ü', 'ü'),
   ('Ç', 'ç')]

/-- Character-wise model of `toLowerCase`. -/
def jsToLower (c : Char) : Char := (lookupC lowerTable c).getD c

/-- Table of the `String.prototype.normalize("NFD")` decomposition,
character-wise, for the lowercase accented letters of Portuguese (the
source lowercases before decomposing, so lowercase keys suffice).  Each
precomposed letter decomposes into its base letter followed by a
combining mark in the U+0300 - U+036F block. -/
def nfdTable : List (Char × List Char) :=
  [('á', ['a', Char.ofNat 0x301]), ('à', ['a', Char.ofNat 0x300]),
   ('â', ['a', Char.ofNat 0x302]), ('ã', ['a', Char.ofNat 0x303]),
   ('é', ['e', Char.ofNat 0x301]), ('ê', ['e', Char.ofNat 0x302]),
   ('í', ['i', Char.ofNat 0x301]), ('ó', ['o', Char.ofNat 0x301]),
   ('ô', ['o', Char.ofNat 0x302]), ('õ', ['o', Char.ofNat 0x303]),
   ('ú', ['u', Char.ofNat 0x301]), ('ü', ['u', Char.ofNat 0x308]),
   ('ç', ['c', Char.ofNat 0x327])]

/-- Character-wise model of NFD decomposition. -/
def nfd (c : Char) : List Char := (lookupC nfdTable c).getD [c]

/-- The combining-mark block removed by `.replace(/[̀-ͯ]/g, "")`. -/
def isMark (c : Char) : Bool := decide (0x300 ≤ c.toNat ∧ c.toNat ≤ 0x36F)

/-- The punctuation set removed by the second `.replace` of the source
(the characters of the regex character class, braces and backtick given
by code point). -/
def punctChars : List Char :=
  ['.', ',', '/', '#', '!', '$', '%', '^', '&', '*', ';', ':',
   Char.ofNat 0x7B, Char.ofNat 0x7D, '=', '-', '_', Char.ofNat 0x60,
   '~', '(', ')']

/-- Membership test for the punctuation set. -/
def isPunctChar (c : Char) : Bool := decide (c ∈ punctChars)

/-- Lower-case, decompose, strip combining marks, strip punctuation:
the character pipeline of `normalizeText` before the final `trim`. -/
def stripStage (l : List Char) : List Char :=
  (((l.map jsToLower).flatMap nfd).filter (fun c => !(isMark c))).filter
    (fun c => !(isPunctChar c))

/-- The final `.trim()` of `normalizeText`: drop whitespace from both
ends. -/
def trimChars (l : List Char) : List Char :=
  (l.dropWhile Char.isWhitespace).rdropWhile Char.isWhitespace

/-- `normalizeText` (src/App.tsx lines 14-21): lower-case, NFD
decomposition, removal of combining marks, removal of punctuation,
trim. -/
def normalizeText (text : String) : String :=
  String.mk (trimChars (stripStage text.toList))

/- ------------------------------------------------------------------ -/
/- Keyword sets (src/App.tsx lines 23-41).                             -/
/- ------------------------------------------------------------------ -/

/-- `IMMEDIATE_STOP_WORDS` (src/App.tsx lines 23-29). -/
def IMMEDIATE_STOP_WORDS : List String :=
  ["tchau", "xau", "ciao",
   "encerrar", "encerrar consulta", "encerrar atendimento",
   "finalizar", "finalizar consulta",
   "terminar", "terminar consulta",
   "parar gravacao"]

/-- `FAREWELL_WORDS` (src/App.tsx lines 31-41): the spread of
`IMMEDIATE_STOP_WORDS` followed by the contextual farewells. -/
def FAREWELL_WORDS : List String :=
  IMMEDIATE_STOP_WORDS ++
  ["ate mais", "ate logo", "ate amanha",
   "quando precisar",
   "me ligue", "me liga",
   "bom descanso",
   "obrigado doutor", "obrigada doutor",
   "pode ir",
   "ta bom entao", "ta certo doutor",
   "muito obrigado"]

/-- Contiguous-subsequence test on character lists, modelling
`String.prototype.includes` of the needle in the haystack. -/
def containsSeq : List Char → List Char → Bool
  | [], n => n.isEmpty
  | c :: t, n => n.isPrefixOf (c :: t) || containsSeq t n

/-- `hay.includes(needle)` on strings. -/
def strIncludes (hay needle : String) : Bool := containsSeq hay.toList needle.toList

/-- `WORDS.some(word => text.includes(word))`. -/
def textHasAny (text : String) (words : List String) : Bool :=
  words.any (fun w => strIncludes text w)

/- ------------------------------------------------------------------ -/
/- VAD configuration (src/App.tsx lines 43-45).                        -/
/- ------------------------------------------------------------------ -/

/-- `SILENCE_THRESHOLD` (average byte-frequency level below which a tick
is classified silent). -/
def SILENCE_THRESHOLD : Nat := 15

/-- `SILENCE_DELAY_MS` (milliseconds of continuous silence before the
recorder is paused). -/
def SILENCE_DELAY_MS : Nat := 3000

/- ------------------------------------------------------------------ -/
/- Session state.                                                      -/
/- ------------------------------------------------------------------ -/

/-- `AppState` (src/types.ts). -/
inductive AppState
  | IDLE
  | RECORDING
  | PROCESSING
  | RESULT
  | ERROR
deriving DecidableEq, Repr

/-- The `MediaRecorder.state` values of the browser recorder. -/
inductive MRState
  | inactive
  | recording
  | paused
deriving DecidableEq, Repr

/-- The session state of the App component: every React state value and
mutable ref that the capture/auto-stop logic reads or writes.
`mr = none` models `mediaRecorderRef.current === null`.  `silenceStart`
models `silenceStartRef.current`, with `0` standing for the falsy
`null`/`0` of the source (the source only ever tests the ref for
truthiness).  `pendingTimeouts` is the multiset of live timeouts of the
environment, as (id, delay) pairs; `autoStopTimeout` is
`autoStopTimeoutRef.current`.  The counters `deviceRequests`,
`recorderStops`, `pauseEvents`, `resumeEvents` and `summarizerCalls`
count the `getUserMedia`, `MediaRecorder.stop` (hence `onstop`
finalization), `MediaRecorder.pause`, `MediaRecorder.resume` and
summarizer-dispatch calls the model performs. -/
structure Model where
  appState : AppState
  mr : Option MRState
  chunks : List (List Nat)
  mimeType : String
  silenceStart : Nat
  isPausedBySilence : Bool
  isAutoStopping : Bool
  timerOn : Bool
  recognitionOn : Bool
  animFrameOn : Bool
  ctxOpen : Bool
  analyserOn : Bool
  autoStopTimeout : Option Nat
  pendingTimeouts : List (Nat × Nat)
  nextId : Nat
  errorMsg : Option String
  showSettings : Bool
  apiKey : String
  deviceRequests : Nat
  recorderStops : Nat
  pauseEvents : Nat
  resumeEvents : Nat
  summarizerCalls : Nat
deriving DecidableEq, Repr

/-- `window.clearTimeout(id)`: the timeout with that id is no longer
pending. -/
def clearTimeoutId (pend : List (Nat × Nat)) (id : Nat) : List (Nat × Nat) :=
  pend.filter (fun p => p.1 != id)

/-- The guarded `mediaRecorderRef.current.stop()` call of
`stopRecording` (src/App.tsx lines 177-179): only a non-inactive
recorder is stopped, and each stop call produces exactly one `onstop`
finalization. -/
def mrStopCall (s : Model) : Model :=
  match s.mr with
  | some st =>
    if st = MRState.inactive then s
    else { s with mr := some MRState.inactive, recorderStops := s.recorderStops + 1 }
  | none => s

/-- The guarded `mediaRecorderRef.current.pause()` call sites
(src/App.tsx lines 209-213): pause only when the recorder is
recording. -/
def mrPause (s : Model) : Model :=
  if s.mr = some MRState.recording then
    { s with mr := some MRState.paused, isPausedBySilence := true,
             pauseEvents := s.pauseEvents + 1 }
  else s

/-- The guarded `mediaRecorderRef.current.resume()` call sites
(src/App.tsx lines 218-222 and 314-317): resume only when the recorder
is paused. -/
def mrResume (s : Model) : Model :=
  if s.mr = some MRState.paused then
    { s with mr := some MRState.recording, isPausedBySilence := false,
             resumeEvents := s.resumeEvents + 1 }
  else s

/-- `stopRecording` (src/App.tsx lines 159-185).  Bails out unless the
app state is RECORDING; otherwise detaches and stops speech
recognition, cancels the analyzer's scheduled frame, closes the audio
context if it is not already closed, stops the recorder if it is not
inactive, clears the pending auto-stop timeout (the source does not
null the ref itself), stops the timer and resets the two flags.  Note
that `stopRecording` does not change `appState`: the transition to
PROCESSING happens in the recorder's asynchronous `onstop` handler. -/
def stopRecording (s : Model) : Model :=
  if s.appState ≠ AppState.RECORDING then s
  else
    let s1 := { s with recognitionOn := false, animFrameOn := false }
    let s2 := if s1.ctxOpen then { s1 with ctxOpen := false } else s1
    let s3 := mrStopCall s2
    let s4 :=
      match s3.autoStopTimeout with
      | some id => { s3 with pendingTimeouts := clearTimeoutId s3.pendingTimeouts id }
      | none => s3
    { s4 with timerOn := false, isAutoStopping := false, isPausedBySilence := false }

/-- The auto-stop timeout callback scheduled by the utterance watcher
(src/App.tsx lines 331-336 and 344-349): call `stopRecording` only if
the session is still RECORDING. -/
def autoStopFire (s : Model) : Model :=
  if s.appState = AppState.RECORDING then stopRecording s else s

/-- One tick of the VAD loop `analyzeAudio` (src/App.tsx lines
188-226), fed the average byte-frequency level and the current
timestamp.  Bails out (without rescheduling) if the analyser is gone or
the app state is not RECORDING.  On a silent tick: open the silence
window if none is open, otherwise pause the recorder once the window
has been open longer than `SILENCE_DELAY_MS`.  On a voiced tick: clear
the window and resume the recorder if paused.  Finally reschedule
itself. -/
def analyzeAudio (s : Model) (average : Nat) (now : Nat) : Model :=
  if s.analyserOn = false ∨ s.appState ≠ AppState.RECORDING then s
  else
    let s1 :=
      if average < SILENCE_THRESHOLD then
        if s.silenceStart = 0 then { s with silenceStart := now }
        else if SILENCE_DELAY_MS < now - s.silenceStart then mrPause s
        else s
      else
        mrResume { s with silenceStart := 0 }
    { s1 with animFrameOn := true }

/-- Run the VAD loop over a list of (average, timestamp) ticks. -/
def runTicks (s : Model) (ticks : List (Nat × Nat)) : Model :=
  ticks.foldl (fun a p => analyzeAudio a p.1 p.2) s

/-- The speech-recognition `onresult` handler (src/App.tsx lines
304-351), fed the concatenated transcript of the event.  Normalizes the
text; resumes the recorder if non-empty text arrived while paused;
unconditionally cancels any pending auto-stop deadline; then evaluates
`IMMEDIATE_STOP_WORDS` first (scheduling a 1200 ms deadline and
returning) and `FAREWELL_WORDS` second (scheduling a 3500 ms
deadline). -/
def onResult (s : Model) (latestTranscript : String) : Model :=
  let text := normalizeText latestTranscript
  let s1 := if 0 < text.length then mrResume s else s
  let s2 :=
    match s1.autoStopTimeout with
    | some id =>
      { s1 with pendingTimeouts := clearTimeoutId s1.pendingTimeouts id,
                autoStopTimeout := none, isAutoStopping := false }
    | none => s1
  if textHasAny text IMMEDIATE_STOP_WORDS then
    { s2 with isAutoStopping := true,
              pendingTimeouts := s2.pendingTimeouts ++ [(s2.nextId, 1200)],
              autoStopTimeout := some s2.nextId, nextId := s2.nextId + 1 }
  else if textHasAny text FAREWELL_WORDS then
    { s2 with isAutoStopping := true,
              pendingTimeouts := s2.pendingTimeouts ++ [(s2.nextId, 3500)],
              autoStopTimeout := some s2.nextId, nextId := s2.nextId + 1 }
  else s2

/-- The priority-ordered container formats probed by
`getSupportedMimeType` (src/App.tsx lines 146-157). -/
def mimeCandidates : List String :=
  ["audio/webm;codecs=opus", "audio/webm", "audio/mp4", "audio/ogg;codecs=opus"]

/-- `getSupportedMimeType`: the first supported candidate wins, the
empty string is the browser-default fallback. -/
def getSupportedMimeType (supported : String → Bool) : String :=
  (mimeCandidates.find? supported).getD ""

/-- `startRecording` (src/App.tsx lines 228-290).  `deviceOk` is the
outcome of the `getUserMedia` request, `supported` the
`MediaRecorder.isTypeSupported` oracle.  With no API key the function
surfaces the configuration message and returns before any device
access.  On device failure it surfaces the microphone message and moves
the controller to ERROR without creating a recorder.  On success it
negotiates the format, creates the recorder with an empty chunk list,
sets up the analyser, starts recorder/timer/recognition and schedules
the VAD loop. -/
def startRecording (s : Model) (deviceOk : Bool) (supported : String → Bool) : Model :=
  if s.apiKey = "" then
    { s with showSettings := true,
             errorMsg := some "Configure sua Chave de API antes de iniciar." }
  else
    let s1 := { s with deviceRequests := s.deviceRequests + 1 }
    if deviceOk = false then
      { s1 with errorMsg := some "Erro ao acessar o microfone. Verifique permissões ou se o dispositivo está em uso.",
                appState := AppState.ERROR }
    else
      { s1 with mimeType := getSupportedMimeType supported,
                mr := some MRState.recording,
                chunks := [],
                ctxOpen := true, analyserOn := true,
                silenceStart := 0,
                appState := AppState.RECORDING,
                timerOn := true,
                recognitionOn := true,
                animFrameOn := true }

/-- The recorder's `ondataavailable` handler (src/App.tsx lines
253-255): append the produced chunk to the accumulator only if its size
is positive. -/
def onDataAvailable (s : Model) (data : List Nat) : Model :=
  if 0 < data.length then { s with chunks := s.chunks ++ [data] } else s

/-- Feed a sequence of produced chunks, in arrival order. -/
def runChunks (s : Model) (ds : List (List Nat)) : Model :=
  ds.foldl onDataAvailable s

/-- A finalized audio artifact: concatenated bytes plus container tag. -/
structure AudioArtifact where
  data : List Nat
  mime : String
deriving DecidableEq, Repr

/-- The finalized blob built by the recorder's `onstop` handler
(src/App.tsx lines 257-262): the concatenation of the accumulated
chunks, typed with the negotiated format or the `audio/webm`
fallback. -/
def audioBlob (s : Model) : AudioArtifact :=
  { data := s.chunks.flatten,
    mime := if s.mimeType = "" then "audio/webm" else s.mimeType }

/-- `handleAudioProcessing` entry (src/App.tsx lines 363-374): the
controller moves to PROCESSING and dispatches the artifact to the
summarizer collaborator. -/
def handleAudioProcessing (s : Model) : Model :=
  { s with appState := AppState.PROCESSING,
           summarizerCalls := s.summarizerCalls + 1 }

/-- The session-timer interval callback installed by `startTimer`
(src/App.tsx lines 474-482).  The callback is the closure
`() => { if (!isPausedBySilence) setTimer(v => v + 1) }`: it reads the
`isPausedBySilence` binding of the render in which `startTimer` was
invoked, not a ref, so the value it tests is the capture-time value
for the whole life of the interval. -/
def timerTick (capturedIsPausedBySilence : Bool) (t : Nat) : Nat :=
  if capturedIsPausedBySilence = false then t + 1 else t

/-- Run the session timer for a sequence of wall-clock seconds.  Each
list element is the live value of `isPausedBySilence` during that
second; the code's callback ignores it in favour of the captured
value. -/
def runTimer (captured : Bool) (secs : List Bool) : Nat :=
  secs.foldl (fun t _ => timerTick captured t) 0

/-- Modelled from the spec: the SessionTimer of section 3 increments
once per wall-clock second only while the capture session is Recording
and not silence-paused, i.e. it reads the current pause state each
second.  (The corresponding gating in the source is the stale-closure
callback `runTimer`; this definition exists to state the divergence.) -/
def specTimerRun (secs : List Bool) : Nat :=
  secs.foldl (fun t p => if p = false then t + 1 else t) 0

/- ------------------------------------------------------------------ -/
/- Concrete session states used to instantiate the theorems.          -/
/- ------------------------------------------------------------------ -/

/-- A live recording session right after a successful `startRecording`. -/
def recModel : Model where
  appState := AppState.RECORDING
  mr := some MRState.recording
  chunks := []
  mimeType := "audio/webm;codecs=opus"
  silenceStart := 0
  isPausedBySilence := false
  isAutoStopping := false
  timerOn := true
  recognitionOn := true
  animFrameOn := true
  ctxOpen := true
  analyserOn := true
  autoStopTimeout := none
  pendingTimeouts := []
  nextId := 0
  errorMsg := none
  showSettings := false
  apiKey := "AIza-test"
  deviceRequests := 1
  recorderStops := 0
  pauseEvents := 0
  resumeEvents := 0
  summarizerCalls := 0

/-- An idle session with no stored API credential. -/
def idleModel : Model :=
  { recModel with appState := AppState.IDLE, mr := none, timerOn := false,
                  recognitionOn := false, animFrameOn := false, ctxOpen := false,
                  analyserOn := false, deviceRequests := 0, apiKey := "" }

/-- An idle session with a stored API credential, before device access. -/
def readyModel : Model :=
  { idleModel with apiKey := "AIza-test" }

/-- The watcher invariant of the auto-stop machinery: at most one
deadline is pending, and every pending deadline is the one the
`autoStopTimeoutRef` points at. -/
def WatcherInv (s : Model) : Prop :=
  s.pendingTimeouts.length ≤ 1
  ∧ ∀ p ∈ s.pendingTimeouts, s.autoStopTimeout = some p.1

instance (s : Model) : Decidable (WatcherInv s) := by
  unfold WatcherInv
  exact inferInstance

/-- The pending-timeout set right after the unconditional
`clearTimeout` at the head of the `onresult` handler. -/
def clearedPending (s : Model) : List (Nat × Nat) :=
  match s.autoStopTimeout with
  | some id => clearTimeoutId s.pendingTimeouts id
  | none => s.pendingTimeouts

/-- The debounce the handler schedules for a normalized fragment: the
immediate class wins with 1200 ms, the farewell class gives 3500 ms. -/
def scheduleDelay (text : String) : Option Nat :=
  if textHasAny text IMMEDIATE_STOP_WORDS then some 1200
  else if textHasAny text FAREWELL_WORDS then some 3500
  else none

/-- A character is normal when the whole pipeline leaves it alone:
fixed by lower-casing, fixed by NFD, not a combining mark and not
punctuation. -/
def normalChar (c : Char) : Prop :=
  jsToLower c = c ∧ nfd c = [c] ∧ isMark c = false ∧ isPunctChar c = false

instance (c : Char) : Decidable (normalChar c) := by
  unfold normalChar
  exact inferInstance

/- ------------------------------------------------------------------ -/
/- Projection helpers.                                                 -/
/- ------------------------------------------------------------------ -/

@[simp] lemma mrResume_pendingTimeouts (s : Model) :
    (mrResume s).pendingTimeouts = s.pendingTimeouts := by
  unfold mrResume; split <;> rfl

@[simp] lemma mrResume_autoStopTimeout (s : Model) :
    (mrResume s).autoStopTimeout = s.autoStopTimeout := by
  unfold mrResume; split <;> rfl

@[simp] lemma mrResume_nextId (s : Model) : (mrResume s).nextId = s.nextId := by
  unfold mrResume; split <;> rfl

@[simp] lemma mrResume_isAutoStopping (s : Model) :
    (mrResume s).isAutoStopping = s.isAutoStopping := by
  unfold mrResume; split <;> rfl

/-- Matching any immediate-stop word implies matching the farewell set:
`FAREWELL_WORDS` spreads `IMMEDIATE_STOP_WORDS` first. -/
lemma immediate_subset_farewell (text : String)
    (h : textHasAny text IMMEDIATE_STOP_WORDS = true) :
    textHasAny text FAREWELL_WORDS = true := by
  unfold textHasAny FAREWELL_WORDS at *
  rw [List.any_append, h, Bool.true_or]

/- ------------------------------------------------------------------ -/
/- Claim C3: session-timer gating.                                     -/
/- ------------------------------------------------------------------ -/

lemma runTimer_false_aux (secs : List Bool) :
    ∀ n : Nat, secs.foldl (fun t _ => timerTick false t) n = n + secs.length := by
  induction secs with
  | nil => intro n; rfl
  | cons a t ih =>
    intro n
    rw [List.foldl_cons, ih]
    have h : timerTick false n = n + 1 := rfl
    rw [h, List.length_cons]
    omega

lemma specTimer_false_aux (N : Nat) :
    ∀ n : Nat,
      (List.replicate N false).foldl (fun t p => if p = false then t + 1 else t) n
        = n + N := by
  induction N with
  | zero => intro n; rfl
  | succ k ih =>
    intro n
    rw [List.replicate_succ, List.foldl_cons]
    rw [if_pos rfl, ih]
    omega

lemma specTimer_true_aux (M : Nat) :
    ∀ n : Nat,
      (List.replicate M true).foldl (fun t p => if p = false then t + 1 else t) n = n := by
  induction M with
  | zero => intro n; rfl
  | succ k ih =>
    intro n
    rw [List.replicate_succ, List.foldl_cons]
    rw [if_neg (by decide), ih]

/-- Claim C3: the claim says the timer counter ends at N+K after N
seconds Recording, M seconds silence-Paused, K seconds Recording.  The
code's interval callback instead tests the stale captured value of
`isPausedBySilence` (false at session start), so it increments on every
second and ends at N+M+K.  The second conjunct evaluates the
spec-modelled per-second gating on the same schedule, giving the N+K
the claim (and the source's own comment on line 476) expects. -/
theorem c3_timer_gating_code_counts_paused_seconds (N M K : Nat) :
    runTimer false
        (List.replicate N false ++ (List.replicate M true ++ List.replicate K false))
      = N + M + K
    ∧ specTimerRun
        (List.replicate N false ++ (List.replicate M true ++ List.replicate K false))
      = N + K := by
  constructor
  · unfold runTimer
    rw [runTimer_false_aux]
    simp [List.length_append]; omega
  · unfold specTimerRun
    rw [List.foldl_append, List.foldl_append, specTimer_false_aux,
        specTimer_true_aux, specTimer_false_aux]
    omega

/- ------------------------------------------------------------------ -/
/- Claim C8: missing credential refuses to start.                      -/
/- ------------------------------------------------------------------ -/

/-- Claim C8: with an absent/empty stored API credential,
`startRecording` surfaces the configuration error and returns
immediately: the resulting state differs only in `showSettings` and
`errorMsg`; in particular no device access is attempted
(`deviceRequests` unchanged), the summarizer is not invoked
(`summarizerCalls` unchanged), and the controller state is unchanged. -/
theorem c8_missing_credential_refuses_start (s : Model) (deviceOk : Bool)
    (supported : String → Bool) (h : s.apiKey = "") :
    startRecording s deviceOk supported
        = { s with showSettings := true,
                   errorMsg := some "Configure sua Chave de API antes de iniciar." }
    ∧ (startRecording s deviceOk supported).deviceRequests = s.deviceRequests
    ∧ (startRecording s deviceOk supported).summarizerCalls = s.summarizerCalls
    ∧ (startRecording s deviceOk supported).appState = s.appState := by
  unfold startRecording
  rw [if_pos h]
  exact ⟨rfl, rfl, rfl, rfl⟩

/-- Witness for C8 at a concrete idle state with empty credential. -/
theorem c8_witness :
    startRecording idleModel false (fun _ => true)
        = { idleModel with showSettings := true,
                           errorMsg := some "Configure sua Chave de API antes de iniciar." } :=
  (c8_missing_credential_refuses_start idleModel false (fun _ => true) (by decide)).1

/- ------------------------------------------------------------------ -/
/- Claim C5: device denial leaves the capture session in Idle.         -/
/- ------------------------------------------------------------------ -/

/-- Claim C5: when microphone access is denied or the device is
unavailable (`deviceOk = false`), `startRecording` fails with the
device error message and the capture session never leaves Idle: no
recorder is created (`mr` stays `none`), no chunk is accumulated, no
finalization happens, and timer/recognition/analyser are never started.
The controller surfaces the failure through its ERROR state, as the
spec's controller state machine prescribes for device failures. -/
theorem c5_device_error_stays_idle (s : Model) (supported : String → Bool)
    (hkey : s.apiKey ≠ "") (hmr : s.mr = none) :
    (startRecording s false supported).errorMsg
        = some "Erro ao acessar o microfone. Verifique permissões ou se o dispositivo está em uso."
    ∧ (startRecording s false supported).appState = AppState.ERROR
    ∧ (startRecording s false supported).mr = none
    ∧ (startRecording s false supported).chunks = s.chunks
    ∧ (startRecording s false supported).recorderStops = s.recorderStops
    ∧ (startRecording s false supported).timerOn = s.timerOn
    ∧ (startRecording s false supported).recognitionOn = s.recognitionOn
    ∧ (startRecording s false supported).analyserOn = s.analyserOn
    ∧ (startRecording s false supported).deviceRequests = s.deviceRequests + 1 := by
  unfold startRecording
  rw [if_neg hkey, if_pos rfl]
  exact ⟨rfl, rfl, hmr, rfl, rfl, rfl, rfl, rfl, rfl⟩

/-- Witness for C5 at a concrete credentialed idle state. -/
theorem c5_witness :
    (startRecording readyModel false (fun _ => true)).appState = AppState.ERROR
    ∧ (startRecording readyModel false (fun _ => true)).mr = none :=
  ⟨(c5_device_error_stays_idle readyModel (fun _ => true) (by decide) (by decide)).2.1,
   (c5_device_error_stays_idle readyModel (fun _ => true) (by decide) (by decide)).2.2.1⟩

/- ------------------------------------------------------------------ -/
/- Claim C7: immediate-stop debounce takes priority.                   -/
/- ------------------------------------------------------------------ -/

/-- Helper: when the normalized fragment matches an immediate-stop word
and no deadline is pending, `onResult` schedules the 1200 ms deadline. -/
lemma onResult_schedules_immediate (s : Model) (f : String)
    (himm : textHasAny (normalizeText f) IMMEDIATE_STOP_WORDS = true)
    (href : s.autoStopTimeout = none) :
    (onResult s f).pendingTimeouts = s.pendingTimeouts ++ [(s.nextId, 1200)]
    ∧ (onResult s f).autoStopTimeout = some s.nextId
    ∧ (onResult s f).nextId = s.nextId + 1 := by
  unfold onResult
  by_cases hr : 0 < (normalizeText f).length
  · simp [hr, himm, href]
  · simp [hr, himm, href]

/-- Claim C7: a fragment matching an ImmediateStop keyword (which, the
first conjunct shows, necessarily also matches the FarewellStop
superset) schedules exactly the 1200 ms ImmediateStop debounce and
never the 3500 ms FarewellStop one: `onResult` evaluates
`IMMEDIATE_STOP_WORDS` first and returns before the farewell check. -/
theorem c7_immediate_priority (s : Model) (f : String)
    (himm : textHasAny (normalizeText f) IMMEDIATE_STOP_WORDS = true)
    (hpend : s.pendingTimeouts = []) (href : s.autoStopTimeout = none) :
    textHasAny (normalizeText f) FAREWELL_WORDS = true
    ∧ (onResult s f).pendingTimeouts = [(s.nextId, 1200)]
    ∧ (onResult s f).autoStopTimeout = some s.nextId
    ∧ (onResult s f).nextId = s.nextId + 1 := by
  obtain ⟨h1, h2, h3⟩ := onResult_schedules_immediate s f himm href
  rw [hpend] at h1
  exact ⟨immediate_subset_farewell _ himm, by simpa using h1, h2, h3⟩

/-- Witness for C7: "tchau até logo" contains the immediate word
"tchau" and the farewell-only phrase "ate logo"; the scheduled debounce
is 1200 ms. -/
theorem c7_witness :
    (onResult recModel "tchau até logo").pendingTimeouts = [(0, 1200)]
    ∧ (onResult recModel "tchau até logo").autoStopTimeout = some 0 :=
  ⟨(c7_immediate_priority recModel "tchau até logo" (by decide) (by decide) (by decide)).2.1,
   (c7_immediate_priority recModel "tchau até logo" (by decide) (by decide) (by decide)).2.2.1⟩

/- ------------------------------------------------------------------ -/
/- Claims C4 and C1: idempotent pause/resume/stop, exclusive stop.     -/
/- ------------------------------------------------------------------ -/

lemma stopRecording_not_recording (s : Model) (h : s.appState ≠ AppState.RECORDING) :
    stopRecording s = s := by
  unfold stopRecording
  rw [if_pos h]

lemma stopRecording_appState (s : Model) :
    (stopRecording s).appState = s.appState := by
  unfold stopRecording mrStopCall clearTimeoutId
  split
  · rfl
  · dsimp only
    repeat' split
    all_goals rfl

lemma stopRecording_stopRecording (s : Model) :
    stopRecording (stopRecording s) = stopRecording s := by
  by_cases hA : s.appState = AppState.RECORDING
  · rcases hmr : s.mr with _ | st
    · rcases hast : s.autoStopTimeout with _ | id <;> by_cases hctx : s.ctxOpen <;>
        simp [stopRecording, mrStopCall, clearTimeoutId, hA, hmr, hast, hctx,
              List.filter_filter]
    · rcases hast : s.autoStopTimeout with _ | id <;> by_cases hctx : s.ctxOpen <;>
        rcases st <;>
        simp [stopRecording, mrStopCall, clearTimeoutId, hA, hmr, hast, hctx,
              List.filter_filter]
  · rw [stopRecording_not_recording s hA, stopRecording_not_recording s hA]

/-- Claim C4: the pause, resume and stop operations are idempotent.
Pausing an already-paused recorder, resuming an already-recording
recorder, or stopping when the session is no longer RECORDING, each
leave the entire session state (recorder state, chunk list, pending
timers, and all side-effect counters) unchanged; and running the stop
routine twice equals running it once. -/
theorem c4_pause_resume_stop_idempotent (s : Model) :
    mrPause (mrPause s) = mrPause s
    ∧ mrResume (mrResume s) = mrResume s
    ∧ (s.appState ≠ AppState.RECORDING → stopRecording s = s)
    ∧ stopRecording (stopRecording s) = stopRecording s := by
  refine ⟨?_, ?_, stopRecording_not_recording s, stopRecording_stopRecording s⟩
  · by_cases h : s.mr = some MRState.recording <;> simp [mrPause, h]
  · by_cases h : s.mr = some MRState.paused <;> simp [mrResume, h]

/-- Witness for C4: stopping an idle session leaves it unchanged, and
pausing an already-paused live session leaves it unchanged. -/
theorem c4_witness :
    stopRecording idleModel = idleModel
    ∧ mrPause (mrPause (mrPause recModel)) = mrPause (mrPause recModel) :=
  ⟨(c4_pause_resume_stop_idempotent idleModel).2.2.1 (by decide),
   (c4_pause_resume_stop_idempotent (mrPause recModel)).1⟩

/-- Claim C1: with the session Recording and a live (non-inactive)
recorder, a manual stop and the auto-stop deadline callback running in
the same event-loop turn — in either order — produce exactly one
recorder stop, hence exactly one `onstop` finalization and one
finalized artifact.  The app state is still RECORDING when the second
trigger runs (the PROCESSING transition is asynchronous), so the second
trigger re-enters the stop routine, but the recorder-state guard makes
it a no-op; every operation is a total function, so no exception is
raised. -/
theorem c1_exclusive_termination (s : Model) (hA : s.appState = AppState.RECORDING)
    (hmr : s.mr = some MRState.recording ∨ s.mr = some MRState.paused) :
    (stopRecording s).recorderStops = s.recorderStops + 1
    ∧ autoStopFire (stopRecording s) = stopRecording s
    ∧ (autoStopFire (stopRecording s)).recorderStops = s.recorderStops + 1
    ∧ (stopRecording (autoStopFire s)).recorderStops = s.recorderStops + 1 := by
  have hfire : autoStopFire (stopRecording s) = stopRecording s := by
    unfold autoStopFire
    rw [stopRecording_appState, if_pos hA, stopRecording_stopRecording]
  have hstops : (stopRecording s).recorderStops = s.recorderStops + 1 := by
    rcases hmr with h | h <;>
      rcases hast : s.autoStopTimeout with _ | id <;> by_cases hctx : s.ctxOpen <;>
        simp [stopRecording, mrStopCall, clearTimeoutId, hA, h, hast, hctx]
  refine ⟨hstops, hfire, by rw [hfire]; exact hstops, ?_⟩
  unfold autoStopFire
  rw [if_pos hA, stopRecording_stopRecording]
  exact hstops

/-- Witness for C1 at a concrete live recording state. -/
theorem c1_witness :
    (stopRecording recModel).recorderStops = 1
    ∧ (autoStopFire (stopRecording recModel)).recorderStops = 1 :=
  ⟨(c1_exclusive_termination recModel (by decide) (Or.inl (by decide))).1,
   (c1_exclusive_termination recModel (by decide) (Or.inl (by decide))).2.2.1⟩

/- ------------------------------------------------------------------ -/
/- Claim C9: chunk accumulation and finalized artifact.                -/
/- ------------------------------------------------------------------ -/

lemma onDataAvailable_mimeType (s : Model) (d : List Nat) :
    (onDataAvailable s d).mimeType = s.mimeType := by
  unfold onDataAvailable
  split <;> rfl

lemma runChunks_mimeType (ds : List (List Nat)) :
    ∀ s : Model, (runChunks s ds).mimeType = s.mimeType := by
  induction ds with
  | nil => intro s; rfl
  | cons d t ih =>
    intro s
    show (runChunks (onDataAvailable s d) t).mimeType = s.mimeType
    rw [ih, onDataAvailable_mimeType]

lemma runChunks_chunks (ds : List (List Nat)) :
    ∀ s : Model,
      (runChunks s ds).chunks = s.chunks ++ ds.filter (fun d => decide (0 < d.length)) := by
  induction ds with
  | nil => intro s; simp [runChunks]
  | cons d t ih =>
    intro s
    show (runChunks (onDataAvailable s d) t).chunks = _
    rw [ih]
    unfold onDataAvailable
    by_cases hd : 0 < d.length
    · rw [if_pos hd]
      simp [List.filter_cons, hd]
    · rw [if_neg hd]
      simp [List.filter_cons, hd]

lemma flatten_filter_pos (ds : List (List Nat)) :
    (ds.filter (fun d => decide (0 < d.length))).flatten = ds.flatten := by
  induction ds with
  | nil => rfl
  | cons d t ih =>
    by_cases hd : 0 < d.length
    · simp [List.filter_cons, hd, ih]
    · have hnil : d = [] := List.eq_nil_of_length_eq_zero (by omega)
      simp [List.filter_cons, hd, ih, hnil]

/-- Counterexample to C9 as stated: the recorder's `ondataavailable`
handler drops a produced chunk whose size is zero (the `event.data.size
> 0` guard), so not every produced encoded chunk is appended to the
accumulator. -/
theorem c9_counterexample :
    (onDataAvailable recModel []).chunks ≠ recModel.chunks ++ [([] : List Nat)] := by
  decide

/-- Claim C9 (amended): while Recording, every encoded chunk of positive
size is appended to the accumulator in arrival order (zero-size chunks
are discarded), and the finalized artifact is the concatenation of the
accumulated chunks — which equals the concatenation of all produced
chunks, since only empty chunks are discarded — tagged with the
negotiated container format. -/
theorem c9_chunks_in_order_amended (s : Model) (ds : List (List Nat))
    (hmt : s.mimeType ≠ "") (hc : s.chunks = []) :
    (runChunks s ds).chunks = ds.filter (fun d => decide (0 < d.length))
    ∧ (audioBlob (runChunks s ds)).data = ds.flatten
    ∧ (audioBlob (runChunks s ds)).mime = s.mimeType := by
  have h1 : (runChunks s ds).chunks = ds.filter (fun d => decide (0 < d.length)) := by
    rw [runChunks_chunks, hc]
    rfl
  refine ⟨h1, ?_, ?_⟩
  · unfold audioBlob
    rw [h1, flatten_filter_pos]
  · unfold audioBlob
    rw [runChunks_mimeType, if_neg hmt]

/-- Witness for the amended C9 on a concrete chunk sequence containing
an empty chunk. -/
theorem c9_witness :
    (runChunks recModel [[1, 2], [], [3]]).chunks = [[1, 2], [3]]
    ∧ (audioBlob (runChunks recModel [[1, 2], [], [3]])).data = [1, 2, 3]
    ∧ (audioBlob (runChunks recModel [[1, 2], [], [3]])).mime = "audio/webm;codecs=opus" := by
  have h := c9_chunks_in_order_amended recModel [[1, 2], [], [3]]
    (by decide) (by decide)
  exact ⟨by rw [h.1]; rfl, by rw [h.2.1]; rfl, h.2.2⟩

/- ------------------------------------------------------------------ -/
/- Claim C2: silence round-trip of the analyzer loop.                  -/
/- ------------------------------------------------------------------ -/

lemma withAnim_self (s : Model) (h : s.animFrameOn = true) :
    { s with animFrameOn := true } = s := by
  cases s
  simp_all

lemma analyzeAudio_silent_open (s : Model) (a t : Nat)
    (han : s.analyserOn = true) (hA : s.appState = AppState.RECORDING)
    (ha : a < SILENCE_THRESHOLD) (hss : s.silenceStart = 0) :
    analyzeAudio s a t = { s with silenceStart := t, animFrameOn := true } := by
  unfold analyzeAudio
  rw [if_neg (by simp [han, hA])]
  dsimp only
  rw [if_pos ha, if_pos hss]

lemma analyzeAudio_silent_short_noop (s : Model) (a t : Nat)
    (han : s.analyserOn = true) (hA : s.appState = AppState.RECORDING)
    (ha : a < SILENCE_THRESHOLD) (hss : s.silenceStart ≠ 0)
    (hlt : ¬ SILENCE_DELAY_MS < t - s.silenceStart)
    (hanim : s.animFrameOn = true) :
    analyzeAudio s a t = s := by
  unfold analyzeAudio
  rw [if_neg (by simp [han, hA])]
  dsimp only
  rw [if_pos ha, if_neg hss, if_neg hlt]
  exact withAnim_self s hanim

lemma analyzeAudio_silent_pause (s : Model) (a t : Nat)
    (han : s.analyserOn = true) (hA : s.appState = AppState.RECORDING)
    (ha : a < SILENCE_THRESHOLD) (hss : s.silenceStart ≠ 0)
    (hlt : SILENCE_DELAY_MS < t - s.silenceStart)
    (hmr : s.mr = some MRState.recording) :
    analyzeAudio s a t
      = { s with mr := some MRState.paused, isPausedBySilence := true,
                 pauseEvents := s.pauseEvents + 1, animFrameOn := true } := by
  unfold analyzeAudio
  rw [if_neg (by simp [han, hA])]
  dsimp only
  rw [if_pos ha, if_neg hss, if_pos hlt]
  unfold mrPause
  rw [if_pos hmr]

lemma analyzeAudio_silent_paused_noop (s : Model) (a t : Nat)
    (han : s.analyserOn = true) (hA : s.appState = AppState.RECORDING)
    (ha : a < SILENCE_THRESHOLD) (hss : s.silenceStart ≠ 0)
    (hmr : s.mr = some MRState.paused) (hanim : s.animFrameOn = true) :
    analyzeAudio s a t = s := by
  unfold analyzeAudio
  rw [if_neg (by simp [han, hA])]
  dsimp only
  rw [if_pos ha, if_neg hss]
  by_cases hlt : SILENCE_DELAY_MS < t - s.silenceStart
  · rw [if_pos hlt]
    unfold mrPause
    rw [if_neg (by simp [hmr])]
    exact withAnim_self s hanim
  · rw [if_neg hlt]
    exact withAnim_self s hanim

lemma analyzeAudio_voiced_resume (s : Model) (a t : Nat)
    (han : s.analyserOn = true) (hA : s.appState = AppState.RECORDING)
    (ha : ¬ a < SILENCE_THRESHOLD) (hmr : s.mr = some MRState.paused) :
    analyzeAudio s a t
      = { s with silenceStart := 0, mr := some MRState.recording,
                 isPausedBySilence := false,
                 resumeEvents := s.resumeEvents + 1, animFrameOn := true } := by
  unfold analyzeAudio
  rw [if_neg (by simp [han, hA])]
  dsimp only
  rw [if_neg ha]
  unfold mrResume
  dsimp only
  rw [if_pos hmr]

lemma runTicks_cons (s : Model) (p : Nat × Nat) (l : List (Nat × Nat)) :
    runTicks s (p :: l) = runTicks (analyzeAudio s p.1 p.2) l := rfl

lemma runTicks_append (s : Model) (l1 l2 : List (Nat × Nat)) :
    runTicks s (l1 ++ l2) = runTicks (runTicks s l1) l2 := by
  unfold runTicks
  rw [List.foldl_append]

lemma runTicks_pre (pre : List (Nat × Nat)) :
    ∀ (s : Model) (x : Nat),
      s.analyserOn = true → s.appState = AppState.RECORDING →
      s.animFrameOn = true → s.silenceStart = x → x ≠ 0 →
      (∀ p ∈ pre, p.1 < SILENCE_THRESHOLD ∧ p.2 ≤ x + SILENCE_DELAY_MS) →
      runTicks s pre = s := by
  induction pre with
  | nil => intros; rfl
  | cons p pre' ih =>
    intro s x han hA hanim hss hx hall
    obtain ⟨hp1, hp2⟩ := hall p (List.mem_cons_self p pre')
    have hnoop : analyzeAudio s p.1 p.2 = s := by
      refine analyzeAudio_silent_short_noop s p.1 p.2 han hA hp1 ?_ ?_ hanim
      · rw [hss]; exact hx
      · rw [hss]
        omega
    rw [runTicks_cons, hnoop]
    exact ih s x han hA hanim hss hx (fun q hq => hall q (List.mem_cons_of_mem p hq))

lemma runTicks_paused (post : List (Nat × Nat)) :
    ∀ (s : Model) (x : Nat),
      s.analyserOn = true → s.appState = AppState.RECORDING →
      s.mr = some MRState.paused → s.animFrameOn = true →
      s.silenceStart = x → x ≠ 0 →
      (∀ p ∈ post, p.1 < SILENCE_THRESHOLD) →
      runTicks s post = s := by
  induction post with
  | nil => intros; rfl
  | cons p post' ih =>
    intro s x han hA hmr hanim hss hx hall
    have hnoop : analyzeAudio s p.1 p.2 = s := by
      refine analyzeAudio_silent_paused_noop s p.1 p.2 han hA
        (hall p (List.mem_cons_self p post')) ?_ hmr hanim
      rw [hss]; exact hx
    rw [runTicks_cons, hnoop]
    exact ih s x han hA hmr hanim hss hx (fun q hq => hall q (List.mem_cons_of_mem p hq))

/-- Claim C2: starting a run of the analyzer loop in the Recording
(unpaused) state with no open silence window, a contiguous sequence of
silent ticks — one opening the window at `t0`, any number of further
silent ticks within the 3000 ms delay, one past it, and any number of
trailing silent ticks — performs exactly one pause transition (the
trailing silent ticks, arriving while already paused, are no-ops), and
a single subsequent voiced tick performs exactly one resume transition
back to recording and clears the silence window. -/
theorem c2_silence_roundtrip (s : Model) (a0 t0 au u av tv : Nat)
    (pre post : List (Nat × Nat))
    (han : s.analyserOn = true) (hA : s.appState = AppState.RECORDING)
    (hmr : s.mr = some MRState.recording)
    (hss : s.silenceStart = 0) (ht0 : 0 < t0)
    (ha0 : a0 < SILENCE_THRESHOLD)
    (hpre : ∀ p ∈ pre, p.1 < SILENCE_THRESHOLD ∧ p.2 ≤ t0 + SILENCE_DELAY_MS)
    (hau : au < SILENCE_THRESHOLD) (hu : t0 + SILENCE_DELAY_MS < u)
    (hpost : ∀ p ∈ post, p.1 < SILENCE_THRESHOLD)
    (hav : ¬ av < SILENCE_THRESHOLD) :
    (runTicks s ((a0, t0) :: (pre ++ (au, u) :: post))).pauseEvents
        = s.pauseEvents + 1
    ∧ (runTicks s ((a0, t0) :: (pre ++ (au, u) :: post))).resumeEvents
        = s.resumeEvents
    ∧ (runTicks s ((a0, t0) :: (pre ++ (au, u) :: post))).mr = some MRState.paused
    ∧ (runTicks s ((a0, t0) :: (pre ++ (au, u) :: post))).isPausedBySilence = true
    ∧ (analyzeAudio (runTicks s ((a0, t0) :: (pre ++ (au, u) :: post))) av tv).resumeEvents
        = s.resumeEvents + 1
    ∧ (analyzeAudio (runTicks s ((a0, t0) :: (pre ++ (au, u) :: post))) av tv).pauseEvents
        = s.pauseEvents + 1
    ∧ (analyzeAudio (runTicks s ((a0, t0) :: (pre ++ (au, u) :: post))) av tv).mr
        = some MRState.recording
    ∧ (analyzeAudio (runTicks s ((a0, t0) :: (pre ++ (au, u) :: post))) av tv).silenceStart = 0
    ∧ (analyzeAudio (runTicks s ((a0, t0) :: (pre ++ (au, u) :: post))) av tv).isPausedBySilence
        = false := by
  have ht0' : t0 ≠ 0 := by omega
  have hopen : analyzeAudio s a0 t0 = { s with silenceStart := t0, animFrameOn := true } :=
    analyzeAudio_silent_open s a0 t0 han hA ha0 hss
  have hrunpre :
      runTicks { s with silenceStart := t0, animFrameOn := true } pre
        = { s with silenceStart := t0, animFrameOn := true } :=
    runTicks_pre pre _ t0 han hA rfl rfl ht0' hpre
  have hpause :
      analyzeAudio { s with silenceStart := t0, animFrameOn := true } au u
        = { s with silenceStart := t0, mr := some MRState.paused,
                   isPausedBySilence := true, pauseEvents := s.pauseEvents + 1,
                   animFrameOn := true } := by
    have := analyzeAudio_silent_pause { s with silenceStart := t0, animFrameOn := true }
      au u han hA hau ht0' (by show SILENCE_DELAY_MS < u - t0; omega) hmr
    exact this
  have hrunpost :
      runTicks { s with silenceStart := t0, mr := some MRState.paused,
                        isPausedBySilence := true, pauseEvents := s.pauseEvents + 1,
                        animFrameOn := true } post
        = { s with silenceStart := t0, mr := some MRState.paused,
                   isPausedBySilence := true, pauseEvents := s.pauseEvents + 1,
                   animFrameOn := true } :=
    runTicks_paused post _ t0 han hA rfl rfl rfl ht0' hpost
  have hrun :
      runTicks s ((a0, t0) :: (pre ++ (au, u) :: post))
        = { s with silenceStart := t0, mr := some MRState.paused,
                   isPausedBySilence := true, pauseEvents := s.pauseEvents + 1,
                   animFrameOn := true } := by
    rw [runTicks_cons]
    dsimp only
    rw [hopen, runTicks_append, hrunpre, runTicks_cons]
    dsimp only
    rw [hpause, hrunpost]
  have hvoiced :
      analyzeAudio { s with silenceStart := t0, mr := some MRState.paused,
                            isPausedBySilence := true,
                            pauseEvents := s.pauseEvents + 1,
                            animFrameOn := true } av tv
        = { s with silenceStart := 0, mr := some MRState.recording,
                   isPausedBySilence := false, pauseEvents := s.pauseEvents + 1,
                   resumeEvents := s.resumeEvents + 1, animFrameOn := true } := by
    have := analyzeAudio_voiced_resume
      { s with silenceStart := t0, mr := some MRState.paused,
               isPausedBySilence := true, pauseEvents := s.pauseEvents + 1,
               animFrameOn := true } av tv han hA hav rfl
    exact this
  rw [hrun, hvoiced]
  exact ⟨rfl, rfl, rfl, rfl, rfl, rfl, rfl, rfl, rfl⟩

/-- Witness for C2: four silent ticks spanning 3002 ms pause the
session exactly once; one voiced tick resumes it exactly once. -/
theorem c2_witness :
    (runTicks recModel [(0, 1), (5, 1000), (0, 2500), (3, 3004)]).pauseEvents = 1
    ∧ (runTicks recModel [(0, 1), (5, 1000), (0, 2500), (3, 3004)]).mr
        = some MRState.paused
    ∧ (analyzeAudio (runTicks recModel [(0, 1), (5, 1000), (0, 2500), (3, 3004)]) 200 4000).resumeEvents = 1
    ∧ (analyzeAudio (runTicks recModel [(0, 1), (5, 1000), (0, 2500), (3, 3004)]) 200 4000).mr
        = some MRState.recording := by
  have h := c2_silence_roundtrip recModel 0 1 3 3004 200 4000
    [(5, 1000), (0, 2500)] []
    (by decide) (by decide) (by decide) (by decide) (by decide)
    (by decide) (by decide) (by decide) (by decide) (by decide) (by decide)
  exact ⟨h.1, h.2.2.1, h.2.2.2.2.1, h.2.2.2.2.2.2.1⟩

/- ------------------------------------------------------------------ -/
/- Claim C6: debounce cancellation in the utterance watcher.           -/
/- ------------------------------------------------------------------ -/

lemma onResult_normal (s : Model) (f : String) :
    (onResult s f).pendingTimeouts
      = (match scheduleDelay (normalizeText f) with
         | some d => clearedPending s ++ [(s.nextId, d)]
         | none => clearedPending s)
    ∧ (onResult s f).autoStopTimeout
      = (match scheduleDelay (normalizeText f) with
         | some _ => some s.nextId
         | none => none)
    ∧ (onResult s f).nextId
      = (match scheduleDelay (normalizeText f) with
         | some _ => s.nextId + 1
         | none => s.nextId) := by
  unfold onResult scheduleDelay clearedPending
  by_cases hr : 0 < (normalizeText f).length <;>
    rcases hast : s.autoStopTimeout with _ | id <;>
    by_cases him : textHasAny (normalizeText f) IMMEDIATE_STOP_WORDS = true <;>
    by_cases hfa : textHasAny (normalizeText f) FAREWELL_WORDS = true <;>
    simp [hr, hast, him, hfa]

lemma clearedPending_nil (s : Model) (h : WatcherInv s) : clearedPending s = [] := by
  obtain ⟨hlen, hall⟩ := h
  unfold clearedPending
  rcases hast : s.autoStopTimeout with _ | id
  · rcases hp : s.pendingTimeouts with _ | ⟨p, t⟩
    · rfl
    · exfalso
      have := hall p (by rw [hp]; exact List.mem_cons_self p t)
      rw [hast] at this
      exact Option.noConfusion this
  · unfold clearTimeoutId
    rw [List.filter_eq_nil_iff]
    intro p hp
    have := hall p hp
    rw [hast] at this
    have hid : p.1 = id := by injection this with h0; omega
    simp [hid]

lemma onResult_watcher_inv (s : Model) (f : String) (h : WatcherInv s) :
    WatcherInv (onResult s f) := by
  obtain ⟨hp, ha, hn⟩ := onResult_normal s f
  have hcp := clearedPending_nil s h
  constructor
  · rw [hp]
    rcases hsd : scheduleDelay (normalizeText f) with _ | d <;> simp [hsd, hcp]
  · intro p hmem
    rw [hp, hcp] at hmem
    rw [ha]
    rcases hsd : scheduleDelay (normalizeText f) with _ | d
    · rw [hsd] at hmem
      simp at hmem
    · rw [hsd] at hmem
      simp at hmem
      subst hmem
      rfl

lemma schedule_of_farewell (t : String)
    (hfa : textHasAny t FAREWELL_WORDS = true) :
    ∃ d, scheduleDelay t = some d := by
  unfold scheduleDelay
  by_cases him : textHasAny t IMMEDIATE_STOP_WORDS = true
  · exact ⟨1200, by rw [if_pos him]⟩
  · exact ⟨3500, by rw [if_neg him, if_pos hfa]⟩

/-- Claim C6: the watcher invariant (at most one pending deadline, the
ref pointing at it) is preserved by every recognition event; and when a
fragment matching a FarewellStop keyword schedules a deadline (with id
`s.nextId`), a later fragment with new non-empty content cancels that
deadline before re-evaluating — after the second fragment no pending
deadline carries the earlier id, so the earlier match can never fire —
and at most one deadline is pending throughout. -/
theorem c6_debounce_cancellation :
    (∀ (s : Model) (f : String), WatcherInv s → WatcherInv (onResult s f))
    ∧ (∀ (s : Model) (f1 f2 : String), WatcherInv s →
        textHasAny (normalizeText f1) FAREWELL_WORDS = true →
        0 < (normalizeText f2).length →
        (∃ d, (s.nextId, d) ∈ (onResult s f1).pendingTimeouts)
        ∧ (onResult s f1).pendingTimeouts.length ≤ 1
        ∧ (onResult (onResult s f1) f2).pendingTimeouts.filter
            (fun p => p.1 == s.nextId) = []
        ∧ (onResult (onResult s f1) f2).pendingTimeouts.length ≤ 1) := by
  refine ⟨onResult_watcher_inv, ?_⟩
  intro s f1 f2 hinv hfa _hne
  obtain ⟨d, hsd⟩ := schedule_of_farewell _ hfa
  obtain ⟨hp1, ha1, hn1⟩ := onResult_normal s f1
  rw [hsd] at hp1 ha1 hn1
  simp only [clearedPending_nil s hinv, List.nil_append] at hp1
  have hcp1 : clearedPending (onResult s f1) = [] := by
    unfold clearedPending
    rw [ha1, hp1]
    unfold clearTimeoutId
    simp
  obtain ⟨hp2, ha2, hn2⟩ := onResult_normal (onResult s f1) f2
  refine ⟨⟨d, by rw [hp1]; exact List.mem_singleton_self _⟩, by rw [hp1]; rfl, ?_, ?_⟩
  · rw [hp2, hcp1]
    rcases hsd2 : scheduleDelay (normalizeText f2) with _ | d2
    · rfl
    · rw [hn1]
      simp [List.filter_cons, Nat.succ_ne_self]
  · rw [hp2, hcp1]
    rcases hsd2 : scheduleDelay (normalizeText f2) with _ | d2 <;> simp

/-- Witness for C6: "até mais" schedules deadline 0; the follow-up
fragment "vamos continuar" cancels it before re-evaluation. -/
theorem c6_witness :
    (∃ d, (0, d) ∈ (onResult recModel "até mais").pendingTimeouts)
    ∧ (onResult (onResult recModel "até mais") "vamos continuar").pendingTimeouts.filter
        (fun p => p.1 == 0) = [] := by
  have h := c6_debounce_cancellation.2 recModel "até mais" "vamos continuar"
    (by decide) (by decide) (by decide)
  exact ⟨h.1, h.2.2.1⟩

/- ------------------------------------------------------------------ -/
/- Claim C10: idempotence of transcript normalization.                 -/
/- ------------------------------------------------------------------ -/

lemma lookupC_mem {α : Type} (t : List (Char × α)) (c : Char) (v : α)
    (h : lookupC t c = some v) : (c, v) ∈ t := by
  induction t with
  | nil => simp [lookupC] at h
  | cons p rest ih =>
    unfold lookupC at h
    split at h
    · rename_i heq
      injection h with hv
      have hcv : (c, v) = p := by rw [heq, ← hv]
      rw [hcv]
      exact List.mem_cons_self p rest
    · exact List.mem_cons_of_mem _ (ih h)

/-- Every lower-cased letter decomposes (after mark/punctuation
filtering) into normal characters: checked over the finite table. -/
lemma lowerTable_snd_normal :
    ∀ d ∈ lowerTable.map Prod.snd, ∀ x ∈ nfd d,
      isMark x = false → isPunctChar x = false → normalChar x := by
  decide

/-- Every NFD decomposition in the table consists, marks aside, of
normal characters: checked over the finite table. -/
lemma nfdTable_decomp_normal :
    ∀ p ∈ nfdTable, ∀ x ∈ p.2,
      isMark x = false → isPunctChar x = false → normalChar x := by
  decide

/-- Any character surviving the mark and punctuation filters of the
pipeline applied to a lower-cased character is normal. -/
lemma stage_out_normal (c c' : Char) (hmem : c' ∈ nfd (jsToLower c))
    (hm : isMark c' = false) (hp : isPunctChar c' = false) : normalChar c' := by
  rcases hl : lookupC lowerTable c with _ | d
  · have hjc : jsToLower c = c := by unfold jsToLower; rw [hl]; rfl
    rw [hjc] at hmem
    rcases hn : lookupC nfdTable c with _ | L
    · have hnc : nfd c = [c] := by unfold nfd; rw [hn]; rfl
      rw [hnc] at hmem
      simp at hmem
      subst hmem
      exact ⟨hjc, hnc, hm, hp⟩
    · have hmemT : (c, L) ∈ nfdTable := lookupC_mem _ _ _ hn
      have hnc : nfd c = L := by unfold nfd; rw [hn]; rfl
      rw [hnc] at hmem
      exact nfdTable_decomp_normal (c, L) hmemT c' hmem hm hp
  · have hjc : jsToLower c = d := by unfold jsToLower; rw [hl]; rfl
    rw [hjc] at hmem
    have hd : d ∈ lowerTable.map Prod.snd := by
      have hcd := lookupC_mem _ _ _ hl
      exact List.mem_map_of_mem Prod.snd hcd
    exact lowerTable_snd_normal d hd c' hmem hm hp

/-- Every character of `stripStage l` is normal. -/
lemma strip_normal (l : List Char) : ∀ c' ∈ stripStage l, normalChar c' := by
  intro c' h
  unfold stripStage at h
  rw [List.mem_filter] at h
  obtain ⟨h1, hp⟩ := h
  rw [List.mem_filter] at h1
  obtain ⟨h2, hm⟩ := h1
  rw [List.mem_flatMap] at h2
  obtain ⟨d, hd, hc'⟩ := h2
  rw [List.mem_map] at hd
  obtain ⟨c, _hc, rfl⟩ := hd
  refine stage_out_normal c c' hc' ?_ ?_
  · simpa using hm
  · simpa using hp

/-- `stripStage` is the identity on lists of normal characters. -/
lemma strip_id (l : List Char) (h : ∀ c ∈ l, normalChar c) : stripStage l = l := by
  induction l with
  | nil => rfl
  | cons a t ih =>
    obtain ⟨h1, h2, h3, h4⟩ := h a (List.mem_cons_self a t)
    have ht := ih (fun c hc => h c (List.mem_cons_of_mem a hc))
    unfold stripStage at *
    rw [List.map_cons, h1, List.flatMap_cons, h2, List.singleton_append,
        List.filter_cons]
    simp only [h3, Bool.not_false, if_true]
    rw [List.filter_cons]
    simp only [h4, Bool.not_false, if_true]
    rw [ht]

lemma rdropWhile_front (p : Char → Bool) (l : List Char) :
    l.rdropWhile p <+: l := by
  have h : l.rdropWhile p = (l.reverse.dropWhile p).reverse := rfl
  rw [h, ← List.reverse_suffix, List.reverse_reverse]
  exact List.dropWhile_suffix p

lemma mem_of_mem_trimChars (l : List Char) (c : Char) (h : c ∈ trimChars l) :
    c ∈ l := by
  unfold trimChars at h
  have h1 : c ∈ l.dropWhile Char.isWhitespace :=
    (rdropWhile_front _ _).subset h
  exact (List.dropWhile_suffix _).subset h1

lemma dropWhile_eq_self_of_front (p : Char → Bool) (X B : List Char)
    (hX : X.dropWhile p = X) (hpre : B <+: X) : B.dropWhile p = B := by
  rcases B with _ | ⟨b, B'⟩
  · rfl
  · obtain ⟨t, hXt⟩ := hpre
    have hb : p b = false := by
      cases hpb : p b with
      | false => rfl
      | true =>
        exfalso
        rw [← hXt, List.cons_append, List.dropWhile_cons, hpb, if_pos rfl] at hX
        have hlen := (List.dropWhile_sublist (l := B' ++ t) p).length_le
        rw [hX] at hlen
        simp at hlen
    rw [List.dropWhile_cons, hb]
    simp

lemma trimChars_idem (l : List Char) : trimChars (trimChars l) = trimChars l := by
  unfold trimChars
  have h1 : (l.dropWhile Char.isWhitespace).dropWhile Char.isWhitespace
      = l.dropWhile Char.isWhitespace := List.dropWhile_idempotent _ _
  have h2 : (((l.dropWhile Char.isWhitespace).rdropWhile
        Char.isWhitespace).dropWhile Char.isWhitespace)
      = (l.dropWhile Char.isWhitespace).rdropWhile Char.isWhitespace :=
    dropWhile_eq_self_of_front _ _ _ h1 (rdropWhile_front _ _)
  rw [h2, List.rdropWhile_idempotent]

/-- Claim C10: `normalizeText` is idempotent — lower-casing, NFD
combining-mark stripping, punctuation removal and trimming reach a
fixed point after one application. -/
theorem c10_normalizeText_idempotent (s : String) :
    normalizeText (normalizeText s) = normalizeText s := by
  unfold normalizeText
  have htl : (String.mk (trimChars (stripStage s.toList))).toList
      = trimChars (stripStage s.toList) := rfl
  rw [htl]
  have hnorm : ∀ c ∈ trimChars (stripStage s.toList), normalChar c :=
    fun c hc => strip_normal _ c (mem_of_mem_trimChars _ c hc)
  rw [strip_id _ hnorm, trimChars_idem]
